import Mathlib

/-!
Verification of the TruEstate sales-browsing system.

The frontend (`frontend/src/app/page.tsx`, `frontend/src/services/api.ts`,
`frontend/src/components/Filters.tsx`) is embedded directly.  The backend
query engine (sorter, paginator, predicate builder) is not part of the
source tree; where a claim depends on it, the component is modelled from
the specification and marked as such in its doc comment.

JavaScript string operations (`split`, `trim`, `toLowerCase`, `endsWith`,
`replace`, `parseInt`) are embedded as executable functions on the
character list underlying a `String`, mirroring ECMAScript semantics on
the ASCII fragment the application uses.
-/

namespace TruEstate

/-! ### JavaScript string primitives -/

/-- Splitting a character list at every occurrence of a separator,
accumulating the current segment in reverse.  Mirrors ECMAScript
`String.prototype.split` with a one-character separator: the result is
never empty, and adjacent separators yield empty segments. -/
def splitCharsAux (sep : Char) : List Char → List Char → List (List Char)
  | [], acc => [acc.reverse]
  | c :: cs, acc =>
    if c = sep then acc.reverse :: splitCharsAux sep cs []
    else splitCharsAux sep cs (c :: acc)

/-- Embedding of JavaScript `s.split(sep)` for a single-character separator. -/
def jsSplit (sep : Char) (s : String) : List String :=
  (splitCharsAux sep s.data []).map fun cs => ⟨cs⟩

/-- Embedding of JavaScript `s.toLowerCase()` (ASCII fragment): lowercase
every character. -/
def strLower (s : String) : String := ⟨s.data.map Char.toLower⟩

/-- Embedding of JavaScript `s.trim()`: strip whitespace from both ends. -/
def jsTrim (s : String) : String :=
  ⟨((s.data.dropWhile Char.isWhitespace).reverse.dropWhile Char.isWhitespace).reverse⟩

/-- Embedding of JavaScript `s.endsWith('+')`. -/
def endsWithPlus (s : String) : Bool :=
  s.data.getLast? = some '+'

/-- Removal of the first occurrence of a character from a list; the
remainder of the list is kept unchanged. -/
def removeFirstAux (t : Char) : List Char → List Char
  | [] => []
  | c :: cs => if c = t then cs else c :: removeFirstAux t cs

/-- Embedding of JavaScript `s.replace('+', '')`, which replaces only the
first occurrence of the pattern. -/
def removeFirstPlus (s : String) : String := ⟨removeFirstAux '+' s.data⟩

/-- Numeric value of the maximal leading run of decimal digits, or `none`
when the run is empty. -/
def parseDigits (cs : List Char) : Option Nat :=
  let ds := cs.takeWhile Char.isDigit
  if ds.isEmpty then none
  else some (ds.foldl (fun a c => 10 * a + (c.toNat - 48)) 0)

/-- Embedding of JavaScript `parseInt(s, 10)`: skip leading whitespace,
accept one optional sign, then read the maximal run of decimal digits;
`none` models `NaN` (no digits found).  Trailing characters are ignored,
as in ECMAScript. -/
def jsParseInt (s : String) : Option Int :=
  match s.data.dropWhile Char.isWhitespace with
  | '+' :: rest => (parseDigits rest).map fun n => (n : Int)
  | '-' :: rest => (parseDigits rest).map fun n => -(n : Int)
  | cs => (parseDigits cs).map fun n => (n : Int)

/-- Boolean prefix test on character lists. -/
def isPrefixList : List Char → List Char → Bool
  | [], _ => true
  | _ :: _, [] => false
  | a :: as, b :: bs => a = b && isPrefixList as bs

/-- Boolean substring test on character lists (used by the search
predicate model). -/
def containsSub (needle : List Char) : List Char → Bool
  | [] => needle.isEmpty
  | c :: cs => isPrefixList needle (c :: cs) || containsSub needle cs

/-- Boolean lexicographic comparison of character lists by code point,
used to compare ISO `YYYY-MM-DD` date strings chronologically. -/
def charListLe : List Char → List Char → Bool
  | [], _ => true
  | _ :: _, [] => false
  | a :: as, b :: bs =>
    if a.toNat < b.toNat then true
    else if b.toNat < a.toNat then false
    else charListLe as bs

/-- Lexicographic string comparison via `charListLe`. -/
def strLeB (a b : String) : Bool := charListLe a.data b.data

/-! ### Data model (from `frontend/src/services/api.ts`, interface
`SalesTransaction`) -/

/-- One sales transaction record, with the fields declared by the
`SalesTransaction` interface in `api.ts`.  Dates are ISO `YYYY-MM-DD`
strings; monetary amounts are modelled as integers, `tags` is the raw
comma-separated label string. -/
structure Record where
  transaction_id : Nat
  date : String
  customer_id : String
  customer_name : String
  phone_number : String
  gender : String
  age : Nat
  customer_region : String
  customer_type : String
  product_id : String
  product_name : String
  brand : String
  product_category : String
  tags : String
  quantity : Nat
  price_per_unit : Int
  discount_percentage : Int
  total_amount : Int
  final_amount : Int
  payment_method : String
  order_status : String
  delivery_type : String
  store_id : String
  store_location : String
  salesperson_id : String
  employee_name : String
deriving DecidableEq, Repr

/-! ### Frontend filter state (from `Filters.tsx`, interface `FilterState`) -/

/-- The filter state held by the `Filters` component: five multi-select
lists plus the `age_range` and `date_range` dropdown strings. -/
structure FilterState where
  customer_regions : List String
  genders : List String
  age_range : String
  product_categories : List String
  tags : List String
  payment_methods : List String
  date_range : String
deriving DecidableEq, Repr

/-- The filter state in which every multi-select list is empty and both
range strings are empty (the state produced by `handleRefresh`). -/
def emptyFilterState : FilterState :=
  ⟨[], [], "", [], [], [], ""⟩

/-- The filter-derived request parameters assembled by
`buildFilterParams` in `page.tsx`.  A `none` field is a key that is
absent from the request object (and hence from the HTTP query string);
`date_to` is declared by `SalesQueryParams` in `api.ts` but never set by
the frontend. -/
structure FilterParams where
  customer_regions : Option (List String)
  genders : Option (List String)
  age_min : Option Int
  age_max : Option Int
  product_categories : Option (List String)
  tags : Option (List String)
  payment_methods : Option (List String)
  date_from : Option String
  date_to : Option String
deriving DecidableEq, Repr

/-- The request parameter object with no constraint at all. -/
def emptyFilterParams : FilterParams :=
  ⟨none, none, none, none, none, none, none, none, none⟩

/-- The `if (max)` branch of the age-range logic in `buildFilterParams`
(`page.tsx` lines 71-77): parse both split segments and keep them only
when both parse and `0 ≤ age_min`, `age_max ≤ 150`, `age_min ≤ age_max`. -/
def ageBothBranch (mn mx : String) : Option Int × Option Int :=
  match jsParseInt mn, jsParseInt mx with
  | some a, some b =>
    if 0 ≤ a ∧ b ≤ 150 ∧ a ≤ b then (some a, some b) else (none, none)
  | _, _ => (none, none)

/-- The `else if (min.endsWith('+'))` branch of the age-range logic
(`page.tsx` lines 78-83), reached when the segment after `'-'` is absent
or empty. -/
def agePlusBranch (mn : String) : Option Int × Option Int :=
  if endsWithPlus mn then
    match jsParseInt (removeFirstPlus mn) with
    | some a => if 0 ≤ a ∧ a ≤ 150 then (some a, none) else (none, none)
    | none => (none, none)
  else (none, none)

/-- The dispatch between the two age-range branches: `min` is the first
split segment, `max` the second; the two-segment branch runs only when
`max` exists and is non-empty (JavaScript truthiness of `max`). -/
def ageDispatch (parts : List String) : Option Int × Option Int :=
  match parts.get? 1 with
  | some mx =>
    if mx ≠ "" then ageBothBranch (parts.headD "") mx
    else agePlusBranch (parts.headD "")
  | none => agePlusBranch (parts.headD "")

/-- The age-range parameters of `buildFilterParams` (`page.tsx` lines
69-84), guarded by the JavaScript truthiness of `filters.age_range`. -/
def ageParams (s : String) : Option Int × Option Int :=
  if s = "" then (none, none) else ageDispatch (jsSplit '-' s)

/-- Embedding of `buildFilterParams` (`page.tsx` lines 61-99): each
multi-select list is sent lowercased when non-empty; the age range
contributes via `ageParams`; a non-empty `date_range` is sent verbatim as
`date_from`; `date_to` is never sent. -/
def buildFilterParams (fs : FilterState) : FilterParams :=
  { customer_regions :=
      if fs.customer_regions.length > 0 then some (fs.customer_regions.map strLower) else none
    genders :=
      if fs.genders.length > 0 then some (fs.genders.map strLower) else none
    age_min := (ageParams fs.age_range).1
    age_max := (ageParams fs.age_range).2
    product_categories :=
      if fs.product_categories.length > 0 then some (fs.product_categories.map strLower) else none
    tags :=
      if fs.tags.length > 0 then some (fs.tags.map strLower) else none
    payment_methods :=
      if fs.payment_methods.length > 0 then some (fs.payment_methods.map strLower) else none
    date_from :=
      if fs.date_range ≠ "" then some fs.date_range else none
    date_to := none }

/-- Embedding of the search-parameter condition in `fetchData`
(`page.tsx` lines 103-106): the `search` key is set to the trimmed
debounced query exactly when the query and its trimmed form are both
non-empty (JavaScript truthiness of strings). -/
def searchParam (s : String) : Option String :=
  if s ≠ "" ∧ jsTrim s ≠ "" then some (jsTrim s) else none

/-- The query state of the `Home` component that `fetchData` reads. -/
structure QueryState where
  debouncedSearchQuery : String
  filters : FilterState
  sortBy : String
  sortOrder : String
  currentPage : Nat
deriving DecidableEq, Repr

/-- The parameter object sent to `/api/sales/transactions` by
`fetchData`: base paging and sort keys, the optional `search` key, and
the filter parameters merged in by `Object.assign`. -/
structure TransactionParams where
  page : Nat
  page_size : Nat
  sort_by : String
  sort_order : String
  search : Option String
  filters : FilterParams
deriving DecidableEq, Repr

/-- The parameter object sent to `/api/sales/summary` by `fetchData`: the
spread `{ ...filterParams }` copies only the filter keys, so the request
carries no `search`, sort, or paging parameter (`search := none` records
that the key is absent). -/
structure SummaryRequest where
  filters : FilterParams
  search : Option String
deriving DecidableEq, Repr

/-- The transactions request assembled by `fetchData` (`page.tsx` lines
52-108) with the fixed page size 10. -/
def transactionsRequest (q : QueryState) : TransactionParams :=
  { page := q.currentPage
    page_size := 10
    sort_by := q.sortBy
    sort_order := q.sortOrder
    search := searchParam q.debouncedSearchQuery
    filters := buildFilterParams q.filters }

/-- The summary request assembled by `fetchData` (`page.tsx` lines
110-114): only the filter parameters are copied, never the search term. -/
def summaryRequest (q : QueryState) : SummaryRequest :=
  { filters := buildFilterParams q.filters
    search := none }

/-! ### Sort dropdown (from `page.tsx`, component `SortByDropdown`) -/

/-- The six options of the sort dropdown, as `(value, label)` pairs
(`page.tsx` lines 211-218). -/
def sortOptions : List (String × String) :=
  [("date_desc", "Date (Newest First)"),
   ("date_asc", "Date (Oldest First)"),
   ("quantity_desc", "Quantity (High to Low)"),
   ("quantity_asc", "Quantity (Low to High)"),
   ("customer_name_asc", "Customer Name (A-Z)"),
   ("customer_name_desc", "Customer Name (Z-A)")]

/-- Embedding of the option click handler (`page.tsx` lines 248-253):
`const [field, order] = option.value.split('_')` takes the first two
segments of the underscore-split value; the second component is `none`
when the split yields fewer than two segments (JavaScript `undefined`). -/
def splitSortValue (v : String) : String × Option String :=
  let parts := jsSplit '_' v
  (parts.headD "", parts.get? 1)

/-- The sort fields the backend supports, per the specification and the
repository README ("Sorting supports three fields"). -/
def supportedSortFields : List String := ["date", "quantity", "customer_name"]

/-- The two sort directions. -/
def supportedSortOrders : List String := ["asc", "desc"]

/-! ### Predicate builder (backend; modelled from the spec) -/

/-- Digit-normalized form of a phone number. -/
def digitsOnly (s : String) : String := ⟨s.data.filter Char.isDigit⟩

/-- Modelled from the spec: the searchable fields of a record (backend
predicate builder is not in the source tree) — customer name, phone
number in raw and digit-normalized forms, transaction id, customer id,
product id, product name, employee name, store id, store location,
brand, customer type, order status, delivery type; numeric fields by
their decimal string form. -/
def searchFieldStrings (r : Record) : List String :=
  [r.customer_name, r.phone_number, digitsOnly r.phone_number,
   toString r.transaction_id, r.customer_id, r.product_id, r.product_name,
   r.employee_name, r.store_id, r.store_location, r.brand, r.customer_type,
   r.order_status, r.delivery_type]

/-- Modelled from the spec: the search predicate — a case-insensitive
substring test, OR-ed over the searchable fields. -/
def searchMatches (s : String) (r : Record) : Bool :=
  (searchFieldStrings r).any fun f =>
    containsSub (strLower s).data (strLower f).data

/-- The multi-valued tag set of a record: the comma-separated `tags`
string split, trimmed and lowercased. -/
def recordTags (r : Record) : List String :=
  (jsSplit ',' r.tags).map fun t => strLower (jsTrim t)

/-- Modelled from the spec: the filter predicate built from the request
parameters (backend predicate builder is not in the source tree).  Every
absent (`none`) parameter is no constraint; set-membership values are
normalized to lowercase defensively before comparison; tags match on any
overlap; `age_min`/`age_max` bound the record's age; `date_from` is an
inclusive lower bound on the record's ISO date. -/
def matchesFilters (p : FilterParams) (r : Record) : Bool :=
  (match p.customer_regions with
   | none => true
   | some l => (l.map strLower).contains (strLower r.customer_region)) &&
  (match p.genders with
   | none => true
   | some l => (l.map strLower).contains (strLower r.gender)) &&
  (match p.age_min with
   | none => true
   | some a => a ≤ (r.age : Int)) &&
  (match p.age_max with
   | none => true
   | some b => (r.age : Int) ≤ b) &&
  (match p.product_categories with
   | none => true
   | some l => (l.map strLower).contains (strLower r.product_category)) &&
  (match p.tags with
   | none => true
   | some l => (recordTags r).any fun t => (l.map strLower).contains t) &&
  (match p.payment_methods with
   | none => true
   | some l => (l.map strLower).contains (strLower r.payment_method)) &&
  (match p.date_from with
   | none => true
   | some d => strLeB d r.date)

/-- Modelled from the spec: the combined query predicate — the search
predicate (no constraint when the search parameter is absent) AND-ed
with all filter sub-predicates. -/
def matchesQuery (p : FilterParams) (search : Option String) (r : Record) : Bool :=
  (match search with
   | none => true
   | some s => searchMatches s r) && matchesFilters p r

/-! ### Sorter (backend; modelled from the spec) -/

/-- The three sort fields the backend supports. -/
inductive SortField
  | date
  | quantity
  | customer_name
deriving DecidableEq, Repr

/-- Sort direction. -/
inductive SortDir
  | asc
  | desc
deriving DecidableEq, Repr

/-- Modelled from the spec: the ascending key comparison for each sort
field — chronological on the ISO date string, numeric on quantity, and
lexicographic on the lowercased customer name (case never affects
relative order). -/
def keyLe : SortField → Record → Record → Prop
  | .date, a, b => a.date ≤ b.date
  | .quantity, a, b => a.quantity ≤ b.quantity
  | .customer_name, a, b => strLower a.customer_name ≤ strLower b.customer_name

/-- Equality of sort keys for a field (for `customer_name`, equality of
the lowercased names, so names differing only by case have equal keys). -/
def sortKeyEq : SortField → Record → Record → Prop
  | .date, a, b => a.date = b.date
  | .quantity, a, b => a.quantity = b.quantity
  | .customer_name, a, b => strLower a.customer_name = strLower b.customer_name

instance keyLeDecidable (f : SortField) : DecidableRel (keyLe f) :=
  match f with
  | .date => fun a b => inferInstanceAs (Decidable (a.date ≤ b.date))
  | .quantity => fun a b => inferInstanceAs (Decidable (a.quantity ≤ b.quantity))
  | .customer_name => fun a b =>
      inferInstanceAs (Decidable (strLower a.customer_name ≤ strLower b.customer_name))

/-- The key comparison in the requested direction: `desc` compares the
keys the opposite way (ties are handled by the stable tie-break below,
never by reversing the input order, so ties keep their original
relative order in both directions). -/
def dirKeyLe (f : SortField) (d : SortDir) (a b : Record) : Prop :=
  match d with
  | .asc => keyLe f a b
  | .desc => keyLe f b a

instance dirKeyLeDecidable (f : SortField) (d : SortDir) : DecidableRel (dirKeyLe f d) :=
  match d with
  | .asc => fun a b => inferInstanceAs (Decidable (keyLe f a b))
  | .desc => fun a b => inferInstanceAs (Decidable (keyLe f b a))

/-- Modelled from the spec: the total order a stable merge sort realizes
on index-tagged records — directed key comparison first, original
position as the tie-break (this is exactly the order a stable sort by
the directed key produces on a position-tagged sequence). -/
def sortRel (f : SortField) (d : SortDir) (x y : Nat × Record) : Prop :=
  dirKeyLe f d x.2 y.2 ∧ (dirKeyLe f d y.2 x.2 → x.1 ≤ y.1)

instance sortRelDecidable (f : SortField) (d : SortDir) : DecidableRel (sortRel f d) :=
  fun _ _ => inferInstanceAs (Decidable (_ ∧ _))

/-- Modelled from the spec: the sorter on an index-tagged sequence —
sorting the filtered sequence, tagged with its original positions, by
the directed key with the position tie-break. -/
def sortEnum (f : SortField) (d : SortDir) (l : List Record) : List (Nat × Record) :=
  List.insertionSort (sortRel f d) l.enum

/-- The sorted record sequence (positions dropped). -/
def sortRecords (f : SortField) (d : SortDir) (l : List Record) : List Record :=
  (sortEnum f d l).map Prod.snd

/-! ### Paginator (backend; modelled from the spec) -/

/-- Modelled from the spec: `total_pages = ceil(total_matched / page_size)`
(backend paginator is not in the source tree). -/
def totalPages (total pageSize : Nat) : Nat := (total + pageSize - 1) / pageSize

/-- Modelled from the spec: the paginator — `skip = (page - 1) * page_size`,
the page is the sub-sequence `[skip, skip + page_size)` clipped to the
sequence bounds. -/
def paginate {α : Type} (l : List α) (page pageSize : Nat) : List α × Nat :=
  ((l.drop ((page - 1) * pageSize)).take pageSize, totalPages l.length pageSize)

/-! ### Error handling in `fetchData` (from `page.tsx`, lines 138-153) -/

/-- The summary statistics displayed by the dashboard. -/
structure SummaryStats where
  total_units_sold : Int
  total_amount : Int
  total_discount : Int
  total_sales_records : Int
deriving DecidableEq, Repr

/-- The all-zero summary. -/
def zeroSummary : SummaryStats := ⟨0, 0, 0, 0⟩

/-- The display state `fetchData` updates. -/
structure ViewState where
  transactions : List Record
  total : Nat
  total_pages : Nat
  summary : SummaryStats
deriving DecidableEq, Repr

/-- The empty display state (no rows, zero totals, zero summary). -/
def emptyViewState : ViewState := ⟨[], 0, 0, zeroSummary⟩

/-- A failed request as seen by the catch block: the optional HTTP status
(`error.response?.status`) and the optional response detail
(`error.response?.data?.detail`). -/
structure ApiError where
  status : Option Nat
  detail : Option String
deriving DecidableEq, Repr

/-- The fallback alert message used when the 400 response carries no
detail. -/
def fallbackErrorMessage : String := "Invalid filter parameters"

/-- Embedding of the catch block of `fetchData`: on a 400 response an
alert message (the detail, or the fallback when the detail is absent or
empty) is raised and the display state is untouched; on any other error
the display state is reset to the empty result and no alert is raised. -/
def handleFetchFailure (prev : ViewState) (e : ApiError) : ViewState × Option String :=
  if e.status = some 400 then
    (prev,
     some (match e.detail with
           | some d => if d ≠ "" then d else fallbackErrorMessage
           | none => fallbackErrorMessage))
  else
    (emptyViewState, none)


/-! ### Helper lemmas -/

/-- Lowercasing an ASCII-uppercase letter leaves the basic-latin range
and in particular lands outside the uppercase range, so `Char.toLower`
is idempotent. -/
theorem toNat_toLower (c : Char) :
    c.toLower.toNat = if c.toNat ≥ 65 ∧ c.toNat ≤ 90 then c.toNat + 32 else c.toNat := by
  rw [Char.toLower]
  split
  · rename_i h
    have hval : Nat.isValidChar (c.toNat + 32) := Or.inl (by omega)
    rw [Char.ofNat, dif_pos hval]
    rfl
  · rfl

/-- `Char.toLower` is idempotent. -/
theorem toLower_toLower (c : Char) : c.toLower.toLower = c.toLower := by
  have h1 := toNat_toLower c
  by_cases h : c.toNat ≥ 65 ∧ c.toNat ≤ 90
  · rw [if_pos h] at h1
    rw [Char.toLower, if_neg (by rw [h1]; omega)]
  · rw [if_neg h] at h1
    rw [Char.toLower, if_neg (by rw [h1]; exact h)]

/-- Lowercasing a string is idempotent. -/
theorem strLower_strLower (s : String) : strLower (strLower s) = strLower s := by
  unfold strLower
  apply congrArg String.mk
  show List.map Char.toLower (List.map Char.toLower s.data) = _
  rw [List.map_map]
  exact List.map_congr_left fun c _ => toLower_toLower c

/-- Every element of an included multi-select parameter list is a fixed
point of `strLower` (the common shape of the five list branches of
`buildFilterParams`). -/
theorem mem_included_list_lowercase {xs l : List String} {v : String}
    (hl : (if xs.length > 0 then some (xs.map strLower) else none) = some l)
    (hv : v ∈ l) : strLower v = v := by
  by_cases h : xs.length > 0
  · rw [if_pos h] at hl
    cases hl
    obtain ⟨u, _, rfl⟩ := List.mem_map.mp hv
    exact strLower_strLower u
  · rw [if_neg h] at hl
    cases hl

/-- Case analysis of the `'+'` branch of the age-range logic: either
nothing is included, or only `age_min`, with `0 ≤ age_min ≤ 150`. -/
theorem agePlusBranch_cases (mn : String) :
    agePlusBranch mn = (none, none)
    ∨ ∃ a, 0 ≤ a ∧ a ≤ 150 ∧ agePlusBranch mn = (some a, none) := by
  unfold agePlusBranch
  split
  · split
    · split
      · rename_i h
        exact Or.inr ⟨_, h.1, h.2, rfl⟩
      · exact Or.inl rfl
    · exact Or.inl rfl
  · exact Or.inl rfl

/-- Case analysis of the two-segment branch of the age-range logic:
either nothing is included, or both bounds, with
`0 ≤ age_min ≤ age_max ≤ 150`. -/
theorem ageBothBranch_cases (mn mx : String) :
    ageBothBranch mn mx = (none, none)
    ∨ ∃ a b, 0 ≤ a ∧ a ≤ b ∧ b ≤ 150 ∧ ageBothBranch mn mx = (some a, some b) := by
  unfold ageBothBranch
  split
  · split
    · rename_i h
      exact Or.inr ⟨_, _, h.1, h.2.2, h.2.1, rfl⟩
    · exact Or.inl rfl
  · exact Or.inl rfl

/-- Case analysis of the age-range dispatch. -/
theorem ageDispatch_cases (parts : List String) :
    ageDispatch parts = (none, none)
    ∨ (∃ a, 0 ≤ a ∧ a ≤ 150 ∧ ageDispatch parts = (some a, none))
    ∨ (∃ a b, 0 ≤ a ∧ a ≤ b ∧ b ≤ 150 ∧ ageDispatch parts = (some a, some b)) := by
  unfold ageDispatch
  cases hg : parts.get? 1 with
  | none =>
    dsimp only
    rcases agePlusBranch_cases (parts.headD "") with h | ⟨a, h0, h1, h⟩
    · exact Or.inl h
    · exact Or.inr (Or.inl ⟨a, h0, h1, h⟩)
  | some mx =>
    dsimp only
    by_cases hmx : mx ≠ ""
    · rw [if_pos hmx]
      rcases ageBothBranch_cases (parts.headD "") mx with h | h
      · exact Or.inl h
      · exact Or.inr (Or.inr h)
    · rw [if_neg hmx]
      rcases agePlusBranch_cases (parts.headD "") with h | ⟨a, h0, h1, h⟩
      · exact Or.inl h
      · exact Or.inr (Or.inl ⟨a, h0, h1, h⟩)

/-- Full case analysis of the age-range parameters. -/
theorem ageParams_cases (s : String) :
    ageParams s = (none, none)
    ∨ (∃ a, 0 ≤ a ∧ a ≤ 150 ∧ ageParams s = (some a, none))
    ∨ (∃ a b, 0 ≤ a ∧ a ≤ b ∧ b ≤ 150 ∧ ageParams s = (some a, some b)) := by
  unfold ageParams
  by_cases hs : s = ""
  · rw [if_pos hs]
    exact Or.inl rfl
  · rw [if_neg hs]
    exact ageDispatch_cases (jsSplit '-' s)

/-! ### Claims -/

/-- C9: the transactions request includes a `search` parameter exactly
when the debounced query is non-empty after trimming, and its value is
then the trimmed query. -/
theorem search_param_iff_trimmed_nonempty (s : String) :
    searchParam s = if jsTrim s = "" then none else some (jsTrim s) := by
  unfold searchParam
  by_cases ht : jsTrim s = ""
  · rw [if_pos ht, if_neg]
    intro hc
    exact hc.2 ht
  · have hs : s ≠ "" := by
      intro h
      apply ht
      rw [h]
      rfl
    rw [if_pos ⟨hs, ht⟩, if_neg ht]

/-- C10: the date filter sent by the frontend is only a lower bound —
`date_from` is the selected `date_range` exactly when one is selected,
and `date_to` is never sent even though `SalesQueryParams` declares it. -/
theorem date_filter_lower_bound_only (fs : FilterState) :
    (buildFilterParams fs).date_from
        = (if fs.date_range = "" then none else some fs.date_range)
    ∧ (buildFilterParams fs).date_to = none := by
  constructor
  · show (if fs.date_range ≠ "" then some fs.date_range else none) = _
    by_cases h : fs.date_range = ""
    · rw [if_pos h, if_neg (fun hc => hc h)]
    · rw [if_neg h, if_pos h]
  · rfl

/-- C6: every value of every set-membership filter list that
`buildFilterParams` includes in the request is lowercase, i.e. a fixed
point of lowercasing. -/
theorem filter_values_lowercased (fs : FilterState) :
    (∀ l v, (buildFilterParams fs).customer_regions = some l → v ∈ l → strLower v = v)
    ∧ (∀ l v, (buildFilterParams fs).genders = some l → v ∈ l → strLower v = v)
    ∧ (∀ l v, (buildFilterParams fs).product_categories = some l → v ∈ l → strLower v = v)
    ∧ (∀ l v, (buildFilterParams fs).tags = some l → v ∈ l → strLower v = v)
    ∧ (∀ l v, (buildFilterParams fs).payment_methods = some l → v ∈ l → strLower v = v) := by
  refine ⟨?_, ?_, ?_, ?_, ?_⟩ <;>
    exact fun l v hl hv => mem_included_list_lowercase hl hv

/-- C6 witness: with the single selected region `"North"`, the sent value
`"north"` is its own lowercase form. -/
theorem filter_values_lowercased_witness : strLower "north" = "north" :=
  (filter_values_lowercased ⟨["North"], [], "", [], [], [], ""⟩).1
    ["north"] "north" (by decide) (by decide)

/-- C7: the age parameters never invert — whenever both are included,
`0 ≤ age_min ≤ age_max ≤ 150`; `age_max` is never included alone; and an
included `age_min` always lies in `[0, 150]`. -/
theorem age_params_never_inverted (s : String) :
    (∀ a b, (ageParams s).1 = some a → (ageParams s).2 = some b →
        0 ≤ a ∧ a ≤ b ∧ b ≤ 150)
    ∧ ((ageParams s).2.isSome → (ageParams s).1.isSome)
    ∧ (∀ a, (ageParams s).1 = some a → 0 ≤ a ∧ a ≤ 150) := by
  rcases ageParams_cases s with h | ⟨a, h0, h1, h⟩ | ⟨a, b, h0, h1, h2, h⟩ <;>
    rw [h] <;> refine ⟨?_, ?_, ?_⟩
  · intro x y hx _
    exact Option.noConfusion hx
  · intro hx
    exact hx
  · intro x hx
    exact Option.noConfusion hx
  · intro x y _ hy
    exact Option.noConfusion hy
  · intro _
    rfl
  · intro x hx
    injection hx with hax
    exact hax ▸ ⟨h0, h1⟩
  · intro x y hx hy
    injection hx with hax
    injection hy with hby
    exact hax ▸ hby ▸ ⟨h0, h1, h2⟩
  · intro _
    rfl
  · intro x hx
    injection hx with hax
    exact hax ▸ ⟨h0, le_trans h1 h2⟩

/-- C7 witness: the dropdown option `"18-25"` yields `age_min = 18`,
`age_max = 25`, and the theorem gives `0 ≤ 18 ≤ 25 ≤ 150`. -/
theorem age_params_never_inverted_witness :
    (0 ≤ (18 : Int) ∧ (18 : Int) ≤ 25 ∧ (25 : Int) ≤ 150)
    ∧ (0 ≤ (65 : Int) ∧ (65 : Int) ≤ 150) :=
  ⟨(age_params_never_inverted "18-25").1 18 25 (by decide) (by decide),
   (age_params_never_inverted "65+").2.2 65 (by decide)⟩

/-- C8: when the request fails with HTTP 400 the detail message is
surfaced and the displayed state is untouched; on any other failure the
displayed state is reset to the empty result with all sums zero and no
alert is raised. -/
theorem fetch_error_handling (prev : ViewState) (e : ApiError) :
    (e.status = some 400 →
        (handleFetchFailure prev e).1 = prev
        ∧ (handleFetchFailure prev e).2.isSome
        ∧ (∀ d, e.detail = some d → d ≠ "" → (handleFetchFailure prev e).2 = some d))
    ∧ (e.status ≠ some 400 →
        handleFetchFailure prev e = (emptyViewState, none)) := by
  constructor
  · intro h
    unfold handleFetchFailure
    rw [if_pos h]
    refine ⟨rfl, rfl, ?_⟩
    intro d hd hne
    rw [hd]
    dsimp only
    rw [if_pos hne]
  · intro h
    unfold handleFetchFailure
    rw [if_neg h]

/-- C8 witness: a 400 failure with a detail message keeps a non-empty
display state intact, while a 500 failure resets it. -/
theorem fetch_error_handling_witness :
    (handleFetchFailure ⟨[], 37, 4, ⟨5, 6, 7, 37⟩⟩ ⟨some 400, some "age_min must be <= age_max"⟩).1
        = ⟨[], 37, 4, ⟨5, 6, 7, 37⟩⟩
    ∧ handleFetchFailure ⟨[], 37, 4, ⟨5, 6, 7, 37⟩⟩ ⟨some 500, none⟩
        = (emptyViewState, none) :=
  ⟨((fetch_error_handling ⟨[], 37, 4, ⟨5, 6, 7, 37⟩⟩ ⟨some 400, some "age_min must be <= age_max"⟩).1 rfl).1,
   (fetch_error_handling ⟨[], 37, 4, ⟨5, 6, 7, 37⟩⟩ ⟨some 500, none⟩).2 (by decide)⟩

/-- C2 fails on the code: the click handler splits the option value on
every underscore and keeps only the first two segments, so both
customer-name options invoke `onSortChange` with field `"customer"`
(not a supported sort field) and order `"name"` (not a direction); the
intended pair `("customer_name", "asc")` is not recovered, and the A-Z
and Z-A options become indistinguishable. -/
theorem sort_dropdown_customer_name_bug :
    ("customer_name_asc", "Customer Name (A-Z)") ∈ sortOptions
    ∧ ("customer_name_desc", "Customer Name (Z-A)") ∈ sortOptions
    ∧ splitSortValue "customer_name_asc" = ("customer", some "name")
    ∧ splitSortValue "customer_name_desc" = ("customer", some "name")
    ∧ "customer" ∉ supportedSortFields
    ∧ "name" ∉ supportedSortOrders
    ∧ splitSortValue "date_asc" = ("date", some "asc")
    ∧ splitSortValue "date_desc" = ("date", some "desc")
    ∧ splitSortValue "quantity_asc" = ("quantity", some "asc")
    ∧ splitSortValue "quantity_desc" = ("quantity", some "desc") := by
  decide

/-- C1 fails on the code: with the active search term `"987"` the
transactions request carries `search = "987"` while the summary request
carries no search parameter at all. -/
theorem summary_search_counterexample :
    (transactionsRequest ⟨"987", emptyFilterState, "date", "desc", 1⟩).search = some "987"
    ∧ (summaryRequest ⟨"987", emptyFilterState, "date", "desc", 1⟩).search = none
    ∧ (summaryRequest ⟨"987", emptyFilterState, "date", "desc", 1⟩).search
        ≠ (transactionsRequest ⟨"987", emptyFilterState, "date", "desc", 1⟩).search := by
  decide

/-- C1 amended: the summary request carries exactly the filter
parameters of the transactions request and never a search parameter;
the two requests agree on the search parameter only when the trimmed
search term is empty. -/
theorem summary_request_ignores_search (q : QueryState) :
    (summaryRequest q).filters = (transactionsRequest q).filters
    ∧ (summaryRequest q).search = none
    ∧ (jsTrim q.debouncedSearchQuery = "" →
        (summaryRequest q).search = (transactionsRequest q).search) := by
  refine ⟨rfl, rfl, ?_⟩
  intro h
  show none = searchParam q.debouncedSearchQuery
  unfold searchParam
  rw [if_neg]
  intro hc
  exact hc.2 h

/-- C1 amended witness: with a whitespace-only search box the two
requests agree on the (absent) search parameter. -/
theorem summary_request_ignores_search_witness :
    (summaryRequest ⟨"   ", emptyFilterState, "date", "desc", 1⟩).search
        = (transactionsRequest ⟨"   ", emptyFilterState, "date", "desc", 1⟩).search :=
  (summary_request_ignores_search ⟨"   ", emptyFilterState, "date", "desc", 1⟩).2.2 (by decide)

/-- C5: with every multi-select list empty, empty range strings, and a
search string that is empty after trimming, the built requests carry no
search parameter and no filter parameter at all, and the resulting
query predicate accepts every record. -/
theorem empty_query_matches_everything (q : QueryState)
    (hf : q.filters = emptyFilterState)
    (hs : jsTrim q.debouncedSearchQuery = "") :
    (transactionsRequest q).search = none
    ∧ (transactionsRequest q).filters = emptyFilterParams
    ∧ summaryRequest q = ⟨emptyFilterParams, none⟩
    ∧ ∀ r : Record,
        matchesQuery (transactionsRequest q).filters (transactionsRequest q).search r = true := by
  have hsearch : searchParam q.debouncedSearchQuery = none := by
    unfold searchParam
    rw [if_neg]
    intro hc
    exact hc.2 hs
  have hfp : buildFilterParams q.filters = emptyFilterParams := by
    rw [hf]
    rfl
  refine ⟨hsearch, hfp, ?_, ?_⟩
  · show SummaryRequest.mk (buildFilterParams q.filters) none = _
    rw [hfp]
  · intro r
    show matchesQuery (buildFilterParams q.filters) (searchParam q.debouncedSearchQuery) r = true
    rw [hfp, hsearch]
    rfl

/-- C5 witness: the pristine query state requests everything and its
predicate accepts a concrete record. -/
theorem empty_query_matches_everything_witness :
    matchesQuery (transactionsRequest ⟨"", emptyFilterState, "date", "desc", 1⟩).filters
        (transactionsRequest ⟨"", emptyFilterState, "date", "desc", 1⟩).search
        ⟨7, "2023-05-01", "CUST1", "Bob Kumar", "+91 9876543210", "Male", 31, "North",
         "Gold", "PROD9", "Basmati Rice", "AgroFarms", "Groceries", "organic, bulk",
         3, 120, 10, 360, 324, "UPI", "Delivered", "Express", "ST4", "Mumbai",
         "EMP2", "Priya Shah"⟩ = true :=
  (empty_query_matches_everything ⟨"", emptyFilterState, "date", "desc", 1⟩ rfl rfl).2.2.2
    ⟨7, "2023-05-01", "CUST1", "Bob Kumar", "+91 9876543210", "Male", 31, "North",
     "Gold", "PROD9", "Basmati Rice", "AgroFarms", "Groceries", "organic, bulk",
     3, 120, 10, 360, 324, "UPI", "Delivered", "Express", "ST4", "Mumbai",
     "EMP2", "Priya Shah"⟩

/-- C4: the paginator returns exactly the clipped window
`[skip, skip + page_size)` with `skip = (page - 1) * page_size` — its
length is `min page_size (length - skip)`, its `i`-th element is the
`(skip + i)`-th element of the input, it is empty (not an error) when
`skip ≥ length` — and `total_pages` is the ceiling of
`length / page_size`, in particular `0` when the input is empty. -/
theorem paginate_spec {α : Type} (l : List α) (page pageSize : Nat)
    (_hpage : 1 ≤ page) (hsize : 1 ≤ pageSize) :
    (paginate l page pageSize).1.length = min pageSize (l.length - (page - 1) * pageSize)
    ∧ (∀ i, i < (paginate l page pageSize).1.length →
        (paginate l page pageSize).1[i]? = l[(page - 1) * pageSize + i]?)
    ∧ ((page - 1) * pageSize ≥ l.length → (paginate l page pageSize).1 = [])
    ∧ (l.length = 0 → (paginate l page pageSize).2 = 0)
    ∧ l.length ≤ pageSize * (paginate l page pageSize).2
    ∧ (0 < l.length → pageSize * ((paginate l page pageSize).2 - 1) < l.length) := by
  have hlen : (paginate l page pageSize).1.length
      = min pageSize (l.length - (page - 1) * pageSize) := by
    show ((l.drop ((page - 1) * pageSize)).take pageSize).length = _
    rw [List.length_take, List.length_drop]
  refine ⟨hlen, ?_, ?_, ?_, ?_, ?_⟩
  · intro i hi
    rw [hlen] at hi
    show ((l.drop ((page - 1) * pageSize)).take pageSize)[i]? = _
    rw [List.getElem?_take, if_pos (lt_of_lt_of_le hi (min_le_left _ _)),
      List.getElem?_drop]
  · intro h
    show (l.drop ((page - 1) * pageSize)).take pageSize = []
    rw [List.drop_eq_nil_of_le h, List.take_nil]
  · intro h
    show (l.length + pageSize - 1) / pageSize = 0
    rw [h]
    apply Nat.div_eq_of_lt
    omega
  · show l.length ≤ pageSize * ((l.length + pageSize - 1) / pageSize)
    have hdm := Nat.div_add_mod (l.length + pageSize - 1) pageSize
    have hmod : (l.length + pageSize - 1) % pageSize < pageSize :=
      Nat.mod_lt _ (by omega)
    generalize hq : (l.length + pageSize - 1) / pageSize = q at hdm ⊢
    generalize hr : (l.length + pageSize - 1) % pageSize = r at hdm hmod
    generalize hy : pageSize * q = y at hdm ⊢
    omega
  · intro h
    show pageSize * ((l.length + pageSize - 1) / pageSize - 1) < l.length
    have hdm := Nat.div_add_mod (l.length + pageSize - 1) pageSize
    have hmod : (l.length + pageSize - 1) % pageSize < pageSize :=
      Nat.mod_lt _ (by omega)
    generalize hq : (l.length + pageSize - 1) / pageSize = q at hdm ⊢
    generalize hr : (l.length + pageSize - 1) % pageSize = r at hdm hmod
    cases q with
    | zero =>
      simp only [Nat.zero_sub, Nat.mul_zero]
      exact h
    | succ q' =>
      rw [Nat.mul_succ] at hdm
      rw [Nat.add_sub_cancel]
      generalize hy : pageSize * q' = y at hdm ⊢
      omega

/-- C4 witness: five records at page 3 with page size 2 yield the single
trailing record and three total pages. -/
theorem paginate_spec_witness :
    (paginate [10, 20, 30, 40, 50] 3 2).1.length
        = min 2 ([10, 20, 30, 40, 50].length - (3 - 1) * 2)
    ∧ [10, 20, 30, 40, 50].length ≤ 2 * (paginate [10, 20, 30, 40, 50] 3 2).2 := by
  have h := paginate_spec [10, 20, 30, 40, 50] 3 2 (by decide) (by decide)
  exact ⟨h.1, h.2.2.2.2.1⟩

/-! ### Sorter lemmas (C3) -/

theorem keyLe_total (f : SortField) (a b : Record) : keyLe f a b ∨ keyLe f b a := by
  cases f <;> exact le_total _ _

theorem keyLe_trans (f : SortField) {a b c : Record} :
    keyLe f a b → keyLe f b c → keyLe f a c := by
  cases f <;> exact le_trans

theorem keyLe_of_sortKeyEq (f : SortField) {a b : Record} (h : sortKeyEq f a b) :
    keyLe f a b := by
  cases f <;> exact le_of_eq h

theorem sortKeyEq_symm (f : SortField) {a b : Record} (h : sortKeyEq f a b) :
    sortKeyEq f b a := by
  cases f <;> exact h.symm

theorem dirKeyLe_total (f : SortField) (d : SortDir) (a b : Record) :
    dirKeyLe f d a b ∨ dirKeyLe f d b a := by
  cases d
  · exact keyLe_total f a b
  · exact keyLe_total f b a

theorem dirKeyLe_trans (f : SortField) (d : SortDir) {a b c : Record} :
    dirKeyLe f d a b → dirKeyLe f d b c → dirKeyLe f d a c := by
  cases d
  · exact keyLe_trans f
  · exact fun h1 h2 => keyLe_trans f h2 h1

theorem dirKeyLe_of_sortKeyEq (f : SortField) (d : SortDir) {a b : Record}
    (h : sortKeyEq f a b) : dirKeyLe f d a b := by
  cases d
  · exact keyLe_of_sortKeyEq f h
  · exact keyLe_of_sortKeyEq f (sortKeyEq_symm f h)

instance sortRelTotal (f : SortField) (d : SortDir) :
    IsTotal (Nat × Record) (sortRel f d) := by
  constructor
  intro x y
  rcases dirKeyLe_total f d x.2 y.2 with h | h
  · by_cases h2 : dirKeyLe f d y.2 x.2
    · rcases Nat.le_total x.1 y.1 with hi | hi
      · exact Or.inl ⟨h, fun _ => hi⟩
      · exact Or.inr ⟨h2, fun _ => hi⟩
    · exact Or.inl ⟨h, fun hc => absurd hc h2⟩
  · by_cases h2 : dirKeyLe f d x.2 y.2
    · rcases Nat.le_total x.1 y.1 with hi | hi
      · exact Or.inl ⟨h2, fun _ => hi⟩
      · exact Or.inr ⟨h, fun _ => hi⟩
    · exact Or.inr ⟨h, fun hc => absurd hc h2⟩

instance sortRelTrans (f : SortField) (d : SortDir) :
    IsTrans (Nat × Record) (sortRel f d) := by
  constructor
  rintro x y z ⟨hxy, txy⟩ ⟨hyz, tyz⟩
  refine ⟨dirKeyLe_trans f d hxy hyz, fun hzx => ?_⟩
  exact Nat.le_trans (txy (dirKeyLe_trans f d hyz hzx))
    (tyz (dirKeyLe_trans f d hzx hxy))

/-- C3: the sorter is a permutation of the filtered input, is ordered by
the requested key in the requested direction, and is stable — any two
records with equal sort keys (for `customer_name`, equal lowercased
names, so names differing only by case) keep their original relative
order, witnessed by strictly increasing original positions. -/
theorem sorter_stable (f : SortField) (d : SortDir) (l : List Record) :
    (sortEnum f d l).Perm l.enum
    ∧ (sortRecords f d l).Perm l
    ∧ (sortEnum f d l).Pairwise (fun x y => dirKeyLe f d x.2 y.2)
    ∧ (sortEnum f d l).Pairwise (fun x y => sortKeyEq f x.2 y.2 → x.1 < y.1) := by
  have hperm : (sortEnum f d l).Perm l.enum :=
    List.perm_insertionSort (sortRel f d) l.enum
  have hsorted : List.Sorted (sortRel f d) (sortEnum f d l) :=
    List.sorted_insertionSort (sortRel f d) l.enum
  have hfst : ((sortEnum f d l).map Prod.fst).Nodup := by
    have henum : (l.enum.map Prod.fst).Nodup := by
      rw [List.enum_map_fst]
      exact List.nodup_range _
    exact (hperm.map Prod.fst).symm.nodup henum
  have hne : (sortEnum f d l).Pairwise (fun x y => x.1 ≠ y.1) :=
    List.pairwise_map.mp hfst
  refine ⟨hperm, ?_, ?_, ?_⟩
  · have h := hperm.map Prod.snd
    rwa [List.enum_map_snd] at h
  · exact List.Pairwise.imp (fun h => h.1) hsorted
  · refine List.Pairwise.imp ?_ (hsorted.and hne)
    rintro x y ⟨⟨_, htie⟩, hne1⟩ heq
    exact Nat.lt_of_le_of_ne (htie (dirKeyLe_of_sortKeyEq f d (sortKeyEq_symm f heq))) hne1

/-- C3 witness: sorting a concrete two-record list by quantity ascending
is a permutation of the input. -/
theorem sorter_stable_witness :
    (sortRecords SortField.quantity SortDir.asc
        [⟨1, "2023-01-01", "C1", "Ann", "11", "F", 30, "north", "new", "P1",
          "Rice", "B1", "grocery", "organic", 5, 10, 0, 50, 50, "upi", "ok",
          "std", "S1", "Mumbai", "E1", "Raj"⟩,
         ⟨2, "2023-01-02", "C2", "Bob", "22", "M", 40, "south", "old", "P2",
          "Tea", "B2", "grocery", "fresh", 2, 10, 0, 20, 20, "cash", "ok",
          "std", "S2", "Delhi", "E2", "Meera"⟩]).Perm
      [⟨1, "2023-01-01", "C1", "Ann", "11", "F", 30, "north", "new", "P1",
        "Rice", "B1", "grocery", "organic", 5, 10, 0, 50, 50, "upi", "ok",
        "std", "S1", "Mumbai", "E1", "Raj"⟩,
       ⟨2, "2023-01-02", "C2", "Bob", "22", "M", 40, "south", "old", "P2",
        "Tea", "B2", "grocery", "fresh", 2, 10, 0, 20, 20, "cash", "ok",
        "std", "S2", "Delhi", "E2", "Meera"⟩] :=
  (sorter_stable SortField.quantity SortDir.asc _).2.1

end TruEstate
